import Mathlib

/-!
Verification of the OverReserve node-resource-topology cache
(pkg/noderesourcetopology/cache/overreserve.go).

The cache overlays the scheduler's in-flight reservations on top of the
published per-node topology snapshots. We embed the cache state and its
public operations shallowly: Go maps become association lists keyed by
strings, resource quantities become `Nat` (published quantities are
non-negative; subtraction clamps at zero, matching the overlay's
"never below zero" clamping), and the fallible external collaborators
(object-store client, pod lister) become explicit `Except` data in a
`ResyncEnv` environment record.

The helper components (topology store, resource overlay store, counters,
fingerprint reconciliation) live in sibling files of the same package that
are not part of the provided sources; their definitions here are modelled
from the specification's component contracts and are marked as such.
-/

namespace SchedCache

/-- A resource quantity inside a zone of a node topology snapshot:
a named resource with its capacity and currently available amount.
Quantities are non-negative integers. -/
structure ZoneResource where
  name : String
  capacity : Nat
  available : Nat
deriving DecidableEq, Repr

/-- A resource zone (NUMA-like domain) of a node. -/
structure Zone where
  name : String
  resources : List ZoneResource
deriving DecidableEq, Repr

/-- A node resource topology snapshot (NodeResourceTopology): the zones with
their quantities, plus the embedded pod-set fingerprint digest and the
optional flag declaring whether the digest covers only exclusive-resource
workload units. -/
structure NRT where
  name : String
  zones : List Zone
  fingerprint : Option String
  fingerprintOnlyExclusive : Option Bool
deriving DecidableEq, Repr

/-- A workload unit (Pod): identity, node assignment, per-resource requested
quantities, and whether it requests exclusive resources. -/
structure Pod where
  ns : String
  name : String
  nodeName : String
  requests : List (String × Nat)
  hasExclusiveResources : Bool
deriving DecidableEq, Repr

/-- The per-pod roster record built by `makeNodeToPodDataMap`
(overreserve.go lines 299-303): namespace, name, exclusivity flag. -/
structure PodData where
  Namespace : String
  Name : String
  HasExclusiveResources : Bool
deriving DecidableEq, Repr

/-- The key under which a pod is tracked (namespace/name), as in
`logging.PodLogID`. -/
def podKey (pod : Pod) : String :=
  pod.ns ++ "/" ++ pod.name

/-! ### Association lists (the shallow embedding of Go maps) -/

/-- Lookup in an association list keyed by strings. -/
def alookup {β : Type} : List (String × β) → String → Option β
  | [], _ => none
  | e :: rest, k => if e.1 = k then some e.2 else alookup rest k

/-- The keys of an association list. -/
def akeys {β : Type} (l : List (String × β)) : List String :=
  l.map (·.1)

/-- Delete every binding of a key. -/
def adelete {β : Type} : List (String × β) → String → List (String × β)
  | [], _ => []
  | e :: rest, k => if e.1 = k then adelete rest k else e :: adelete rest k

/-- Insert-or-replace a binding. -/
def aupsert {β : Type} (l : List (String × β)) (k : String) (v : β) : List (String × β) :=
  match alookup l k with
  | some _ => l.map (fun e => if e.1 = k then (e.1, v) else e)
  | none => l ++ [(k, v)]

/-! ### Dirty-node counters

Modelled from the spec (§4.3): the counter component lives in a sibling
file of the package that is not among the provided sources. Contract:
`incr(node) -> new count`, `delete(node)`, `isSet(node)`, `keys()`,
`clone()` (clone is value copying, which is implicit here). -/

/-- A per-node occurrence counter (Go: `map[string]int`). -/
abbrev Counter := List (String × Nat)

/-- Modelled from the spec: current count of a node (0 when absent). -/
def cGet (c : Counter) (k : String) : Nat :=
  (alookup c k).getD 0

/-- Modelled from the spec: whether the node has been counted at all. -/
def cIsSet (c : Counter) (k : String) : Bool :=
  (alookup c k).isSome

/-- Modelled from the spec: increment the node's count (creating it at 1). -/
def cIncr (c : Counter) (k : String) : Counter :=
  match alookup c k with
  | some _ => c.map (fun e => if e.1 = k then (e.1, e.2 + 1) else e)
  | none => c ++ [(k, 1)]

/-- Modelled from the spec: drop the node's count entirely. -/
def cDelete (c : Counter) (k : String) : Counter :=
  adelete c k

/-- Modelled from the spec: the node names currently counted. -/
def cKeys (c : Counter) : List String :=
  akeys c

/-! ### Resource overlay store

Modelled from the spec (§4.2): the per-node record of resources charged by
provisionally reserved workload units, keyed by unit identity so that
removing an unknown or already-removed unit is a no-op. `applyTo` reduces
each zone's available quantity by the accumulated charge for that resource
name, never below zero (automatic with `Nat` truncated subtraction). -/

/-- The overlay record for one node: recorded units (by pod key) with their
requested quantities. -/
abbrev ResourceStore := List (String × List (String × Nat))

/-- Modelled from the spec: total charge accumulated for one resource name. -/
def rsChargeOf (rs : ResourceStore) (resName : String) : Nat :=
  rs.foldl (fun acc e => acc + (alookup e.2 resName).getD 0) 0

/-- Modelled from the spec: record a unit's requested resources. Adding a
unit already recorded has no effect (its charges are already accounted). -/
def rsAddPod (rs : ResourceStore) (pod : Pod) : ResourceStore :=
  match alookup rs (podKey pod) with
  | some _ => rs
  | none => rs ++ [(podKey pod, pod.requests)]

/-- Modelled from the spec: remove a unit's recorded resources; removal of an
unknown unit is a no-op. -/
def rsDeletePod (rs : ResourceStore) (pod : Pod) : ResourceStore :=
  adelete rs (podKey pod)

/-- Modelled from the spec: produce the adjusted copy of a snapshot — each
zone's available quantity reduced by the accumulated charge for that
resource, clamped at zero (`Nat` subtraction truncates). -/
def rsUpdateNRT (rs : ResourceStore) (nrt : NRT) : NRT :=
  { nrt with zones := nrt.zones.map (fun z =>
      { z with resources := z.resources.map (fun r =>
          { r with available := r.available - rsChargeOf rs r.name }) }) }

/-! ### Topology store

Modelled from the spec (§4.1): `get(node) -> snapshot-or-absent`,
`contains(node)`, `replace(node, snapshot)` as an idempotent upsert keyed
by node name. Returned snapshots are deep copies; Lean value semantics
gives this for free. -/

/-- Modelled from the spec: fetch the stored snapshot for a node. -/
def nrtsGet (s : List (String × NRT)) (n : String) : Option NRT :=
  alookup s n

/-- Modelled from the spec: whether a snapshot is stored for the node. -/
def nrtsContains (s : List (String × NRT)) (n : String) : Bool :=
  (alookup s n).isSome

/-- Modelled from the spec: replace (upsert) the node's stored snapshot. -/
def nrtsUpdate (s : List (String × NRT)) (nrt : NRT) : List (String × NRT) :=
  aupsert s nrt.name nrt

/-! ### The OverReserve cache -/

/-- The configured resync method (apiconfig.CacheResyncMethod): autodetect,
all resources, or only exclusive resources. -/
inductive CacheResyncMethod where
  | autodetect
  | allResources
  | onlyExclusiveResources
deriving DecidableEq, Repr

/-- The OverReserve cache state (overreserve.go lines 43-56): topology store,
per-node resource overlay, the two dirty-node counters, and the resync
method fixed at construction. (The logger, lock, and external collaborator
handles carry no state relevant to the embedding.) -/
structure OverReserve where
  nrts : List (String × NRT)
  assumedResources : List (String × ResourceStore)
  nodesMaybeOverreserved : Counter
  nodesWithForeignPods : Counter
  resyncMethod : CacheResyncMethod
deriving DecidableEq, Repr

/-- `NewOverReserve` (lines 58-84) after a successful initial listing: the
listed snapshots loaded in the topology store, everything else empty. -/
def newOverReserve (nrtObjs : List NRT) (method : CacheResyncMethod) : OverReserve :=
  { nrts := nrtObjs.map (fun t => (t.name, t))
    assumedResources := []
    nodesMaybeOverreserved := []
    nodesWithForeignPods := []
    resyncMethod := method }

/-- `GetCachedNRTCopy` (lines 86-110): `(none, false)` when the node is
flagged foreign; `(none, true)` when no snapshot is stored; otherwise the
snapshot, adjusted by the node's overlay when one exists. -/
def GetCachedNRTCopy (ov : OverReserve) (nodeName : String) : Option NRT × Bool :=
  if cIsSet ov.nodesWithForeignPods nodeName then
    (none, false)
  else
    match nrtsGet ov.nrts nodeName with
    | none => (none, true)
    | some nrt =>
      match alookup ov.assumedResources nodeName with
      | none => (some nrt, true)
      | some nodeAssumedResources => (some (rsUpdateNRT nodeAssumedResources nrt), true)

/-- `NodeMaybeOverReserved` (lines 112-117): unconditionally increment the
"maybe over-reserved" counter for the node. -/
def NodeMaybeOverReserved (ov : OverReserve) (nodeName : String) : OverReserve :=
  { ov with nodesMaybeOverreserved := cIncr ov.nodesMaybeOverreserved nodeName }

/-- `NodeHasForeignPods` (lines 119-129): increment the foreign counter only
when a snapshot is stored for the node; otherwise ignore the call. -/
def NodeHasForeignPods (ov : OverReserve) (nodeName : String) : OverReserve :=
  if nrtsContains ov.nrts nodeName then
    { ov with nodesWithForeignPods := cIncr ov.nodesWithForeignPods nodeName }
  else
    ov

/-- `ReserveNodeResources` (lines 131-146): add the pod to the node's overlay
(creating the overlay entry when absent) and clear the node's "maybe
over-reserved" counter. -/
def ReserveNodeResources (ov : OverReserve) (nodeName : String) (pod : Pod) : OverReserve :=
  let nodeAssumedResources := (alookup ov.assumedResources nodeName).getD []
  { ov with
      assumedResources :=
        aupsert ov.assumedResources nodeName (rsAddPod nodeAssumedResources pod)
      nodesMaybeOverreserved := cDelete ov.nodesMaybeOverreserved nodeName }

/-- `UnreserveNodeResources` (lines 148-162): remove the pod from the node's
overlay; when the node has no overlay entry the call is a logged no-op. -/
def UnreserveNodeResources (ov : OverReserve) (nodeName : String) (pod : Pod) : OverReserve :=
  match alookup ov.assumedResources nodeName with
  | none => ov
  | some nodeAssumedResources =>
    { ov with
        assumedResources :=
          aupsert ov.assumedResources nodeName (rsDeletePod nodeAssumedResources pod) }

/-- `NodesMaybeOverReserved` (lines 171-191): the dirty-node list — keys of
the foreign counter's clone merged (by increments) with the keys of the
"maybe over-reserved" counter. -/
def NodesMaybeOverReserved (ov : OverReserve) : List String :=
  cKeys ((cKeys ov.nodesMaybeOverreserved).foldl cIncr ov.nodesWithForeignPods)

/-- One step of `FlushNodes` (lines 274-280): replace the stored snapshot,
delete the overlay entry, clear both counters for the flushed node. -/
def flushNode (ov : OverReserve) (nrt : NRT) : OverReserve :=
  { ov with
      nrts := nrtsUpdate ov.nrts nrt
      assumedResources := adelete ov.assumedResources nrt.name
      nodesMaybeOverreserved := cDelete ov.nodesMaybeOverreserved nrt.name
      nodesWithForeignPods := cDelete ov.nodesWithForeignPods nrt.name }

/-- `FlushNodes` (lines 271-281): flush each given fresh snapshot in turn. -/
def FlushNodes (ov : OverReserve) (nrts : List NRT) : OverReserve :=
  nrts.foldl flushNode ov

/-! ### Resync and its collaborators -/

/-- The external collaborators consulted during one resync cycle: the result
the pod lister would return, the relevance predicate, the per-node snapshot
fetch of the object-store client, and the opaque order-independent
fingerprint digest over (namespace, name) identifier sets. -/
structure ResyncEnv where
  pods : Except String (List Pod)
  isPodRelevant : Pod → Bool
  clientGet : String → Except String NRT
  digest : List (String × String) → String

/-- `makeNodeToPodDataMap` (lines 288-307): group the relevant listed pods by
node name into rosters; a listing failure is propagated and aborts the
caller's resync cycle. -/
def makeNodeToPodDataMap (pods : Except String (List Pod)) (isPodRelevant : Pod → Bool) :
    Except String (List (String × List PodData)) :=
  match pods with
  | .error e => .error e
  | .ok ps =>
    .ok (ps.foldl (fun m pod =>
      if isPodRelevant pod then
        aupsert m pod.nodeName
          ((alookup m pod.nodeName).getD [] ++
            [⟨pod.ns, pod.name, pod.hasExclusiveResources⟩])
      else m) [])

/-- Modelled from the spec: `podFingerprintForNodeTopology` (a sibling file of
the package, not among the provided sources) extracts the snapshot's embedded
digest — the empty string signalling missing fingerprint data — and resolves
the digest's scope: the snapshot's own declared flag when present, otherwise
a fallback from the configured resync method. -/
def podFingerprintForNodeTopology (nrt : NRT) (method : CacheResyncMethod) : String × Bool :=
  match nrt.fingerprint with
  | none => ("", false)
  | some pfp =>
    let onlyExclRes :=
      match nrt.fingerprintOnlyExclusive with
      | some b => b
      | none =>
        match method with
        | .onlyExclusiveResources => true
        | _ => false
    (pfp, onlyExclRes)

/-- Modelled from the spec: `checkPodFingerprintForNode` (a sibling file of
the package, not among the provided sources) computes the digest over the
correctly-scoped subset of the node's live roster — all units, or only the
exclusive-resource units — and compares it with the published digest;
`true` means match (snapshot authoritative). -/
def checkPodFingerprintForNode (digest : List (String × String) → String)
    (objs : List PodData) (pfpExpected : String) (onlyExclRes : Bool) : Bool :=
  let scopedObjs := if onlyExclRes then objs.filter (·.HasExclusiveResources) else objs
  decide (digest (scopedObjs.map (fun o => (o.Namespace, o.Name))) = pfpExpected)

/-- The per-dirty-node body of the `Resync` loop (lines 223-265): fetch the
node's published snapshot (skip on failure), look up its live roster (skip
when absent), extract the fingerprint (skip when missing), check it against
the roster (skip on mismatch); on success the snapshot is accumulated for
flushing. -/
def resyncCandidateFor (env : ResyncEnv) (method : CacheResyncMethod)
    (nodeToObjsMap : List (String × List PodData)) (nodeName : String) : Option NRT :=
  match env.clientGet nodeName with
  | .error _ => none
  | .ok nrtCandidate =>
    match alookup nodeToObjsMap nodeName with
    | none => none
    | some objs =>
      if (podFingerprintForNodeTopology nrtCandidate method).1 = "" then none
      else if checkPodFingerprintForNode env.digest objs
          (podFingerprintForNodeTopology nrtCandidate method).1
          (podFingerprintForNodeTopology nrtCandidate method).2 then
        some nrtCandidate
      else none

/-- `Resync` (lines 201-268): no-op when no node is dirty; abort the whole
cycle when the pod listing fails; otherwise flush exactly the dirty nodes
whose candidate snapshot passes every per-node check. -/
def Resync (env : ResyncEnv) (ov : OverReserve) : OverReserve :=
  let nodeNames := NodesMaybeOverReserved ov
  if nodeNames.isEmpty then ov
  else
    match makeNodeToPodDataMap env.pods env.isPodRelevant with
    | .error _ => ov
    | .ok nodeToObjsMap =>
      FlushNodes ov (nodeNames.filterMap (resyncCandidateFor env ov.resyncMethod nodeToObjsMap))

/-- `PostBind` (line 320): a no-op hook. -/
def PostBind (ov : OverReserve) (_nodeName : String) (_pod : Pod) : OverReserve :=
  ov

/-- The overlay record currently held for a node (empty when the node has no
overlay entry): applying an empty record leaves a snapshot unchanged, so this
uniformly describes the adjusted view `GetCachedNRTCopy` returns. -/
def overlayOf (ov : OverReserve) (n : String) : ResourceStore :=
  (alookup ov.assumedResources n).getD []

/-- The cache states reachable through the public operations, starting from
a freshly constructed cache. -/
inductive Reachable : OverReserve → Prop where
  | init (nrtObjs : List NRT) (method : CacheResyncMethod) :
      Reachable (newOverReserve nrtObjs method)
  | reserve {ov : OverReserve} (n : String) (p : Pod) :
      Reachable ov → Reachable (ReserveNodeResources ov n p)
  | unreserve {ov : OverReserve} (n : String) (p : Pod) :
      Reachable ov → Reachable (UnreserveNodeResources ov n p)
  | markMaybe {ov : OverReserve} (n : String) :
      Reachable ov → Reachable (NodeMaybeOverReserved ov n)
  | markForeign {ov : OverReserve} (n : String) :
      Reachable ov → Reachable (NodeHasForeignPods ov n)
  | flush {ov : OverReserve} (nrts : List NRT) :
      Reachable ov → Reachable (FlushNodes ov nrts)
  | resync {ov : OverReserve} (env : ResyncEnv) :
      Reachable ov → Reachable (Resync env ov)

/-! ### Concrete sample data (used by the closed evaluation theorems) -/

/-- Sample workload unit "ns1/a" on node "n1". -/
def podA : Pod :=
  { ns := "ns1", name := "a", nodeName := "n1"
    requests := [("cpu", 2), ("mem", 12)], hasExclusiveResources := false }

/-- Sample workload unit "ns1/b" on node "n1". -/
def podB : Pod :=
  { ns := "ns1", name := "b", nodeName := "n1"
    requests := [("cpu", 1)], hasExclusiveResources := false }

/-- Sample workload unit "ns1/c" on node "n1". -/
def podC : Pod :=
  { ns := "ns1", name := "c", nodeName := "n1"
    requests := [("cpu", 1)], hasExclusiveResources := false }

/-- A concrete order-dependent stand-in for the opaque fingerprint digest:
enough for equality comparison in the closed scenarios. -/
def digestF (ids : List (String × String)) : String :=
  (ids.map (fun p => p.1 ++ "/" ++ p.2)).foldl (fun acc s => acc ++ "|" ++ s) "pfp"

/-- The digest over the roster {ns1/a, ns1/b}. -/
def pfpD : String :=
  digestF [("ns1", "a"), ("ns1", "b")]

/-- The stale snapshot of node "n1" held by the cache. -/
def nrtOld : NRT :=
  { name := "n1"
    zones := [⟨"zone-0", [⟨"cpu", 8, 4⟩, ⟨"mem", 16, 10⟩]⟩,
              ⟨"zone-1", [⟨"cpu", 8, 8⟩]⟩]
    fingerprint := some "stale-digest"
    fingerprintOnlyExclusive := none }

/-- The fresh published snapshot of node "n1", fingerprinted over {a, b}. -/
def nrtNew : NRT :=
  { name := "n1"
    zones := [⟨"zone-0", [⟨"cpu", 8, 2⟩, ⟨"mem", 16, 4⟩]⟩,
              ⟨"zone-1", [⟨"cpu", 8, 7⟩]⟩]
    fingerprint := some pfpD
    fingerprintOnlyExclusive := none }

/-- A snapshot for node "f" (used to flag "f" as foreign). -/
def nrtF : NRT :=
  { name := "f", zones := [], fingerprint := none, fingerprintOnlyExclusive := none }

/-- A freshly constructed cache holding the snapshots of "n1" and "f". -/
def ovInit : OverReserve :=
  newOverReserve [nrtOld, nrtF] CacheResyncMethod.autodetect

/-- A cache state where "n1" carries an overlay (podA reserved) and a dirty
marker, ready for resync. -/
def ovC2 : OverReserve :=
  NodeMaybeOverReserved (ReserveNodeResources ovInit "n1" podA) "n1"

/-- A cache state where "f" is flagged foreign and "n1" carries an overlay. -/
def ovC1 : OverReserve :=
  NodeHasForeignPods (ReserveNodeResources ovInit "n1" podA) "f"

/-- A cache state with two nodes marked "maybe over-reserved". -/
def ovC7 : OverReserve :=
  NodeMaybeOverReserved (NodeMaybeOverReserved ovInit "n1") "n2"

/-- The resync environment of the matching scenario: live roster {a, b} on
"n1", the fetch returning the freshly fingerprinted snapshot. -/
def envW : ResyncEnv :=
  { pods := Except.ok [podA, podB]
    isPodRelevant := fun _ => true
    clientGet := fun s => if s = "n1" then Except.ok nrtNew else Except.error "missing"
    digest := digestF }

/-- The mismatch scenario: the live roster grew to {a, b, c} while the
published snapshot still carries the digest over {a, b}. -/
def envW2 : ResyncEnv :=
  { envW with pods := Except.ok [podA, podB, podC] }

/-- A resync environment whose workload-unit listing fails. -/
def envErr : ResyncEnv :=
  { pods := Except.error "connection refused"
    isPodRelevant := fun _ => true
    clientGet := fun _ => Except.error "missing"
    digest := digestF }

/-- The roster map the matching scenario's listing produces. -/
def mW : List (String × List PodData) :=
  [("n1", [⟨"ns1", "a", false⟩, ⟨"ns1", "b", false⟩])]

/-- The roster map the mismatch scenario's listing produces. -/
def mW2 : List (String × List PodData) :=
  [("n1", [⟨"ns1", "a", false⟩, ⟨"ns1", "b", false⟩, ⟨"ns1", "c", false⟩])]

/-! ### Association-list lemmas -/

theorem alookup_adelete_self {β : Type} (l : List (String × β)) (k : String) :
    alookup (adelete l k) k = none := by
  induction l with
  | nil => rfl
  | cons e rest ih =>
    by_cases h : e.1 = k
    · simpa [adelete, h] using ih
    · simpa [adelete, alookup, h] using ih

theorem alookup_adelete_ne {β : Type} (l : List (String × β)) {k k' : String} (h : k' ≠ k) :
    alookup (adelete l k') k = alookup l k := by
  induction l with
  | nil => rfl
  | cons e rest ih =>
    by_cases he : e.1 = k'
    · have hk : ¬ e.1 = k := by
        intro hc
        exact h (by rw [← hc, he])
      simp [adelete, alookup, he, hk, h, ih]
    · by_cases hk : e.1 = k
      · simp [adelete, alookup, he, hk, Ne.symm h]
      · simp [adelete, alookup, he, hk, ih]

theorem alookup_append_single_self {β : Type} {l : List (String × β)} {k : String}
    (h : alookup l k = none) (v : β) :
    alookup (l ++ [(k, v)]) k = some v := by
  induction l with
  | nil => simp [alookup]
  | cons e rest ih =>
    by_cases he : e.1 = k
    · rw [alookup, if_pos he] at h
      cases h
    · rw [alookup, if_neg he] at h
      rw [List.cons_append, alookup, if_neg he]
      exact ih h

theorem alookup_append_single_ne {β : Type} (l : List (String × β)) {k k' : String}
    (v : β) (h : k' ≠ k) :
    alookup (l ++ [(k', v)]) k = alookup l k := by
  induction l with
  | nil => simp [alookup, h]
  | cons e rest ih =>
    by_cases he : e.1 = k
    · simp [alookup, he]
    · simp [alookup, he, ih]

theorem alookup_map_modify_self {β : Type} (l : List (String × β)) (k : String) (f : β → β) :
    alookup (l.map (fun e => if e.1 = k then (e.1, f e.2) else e)) k
      = (alookup l k).map f := by
  induction l with
  | nil => rfl
  | cons e rest ih =>
    by_cases he : e.1 = k
    · simp [alookup, he]
    · simp [alookup, he, ih]

theorem alookup_map_modify_ne {β : Type} (l : List (String × β)) {k k' : String}
    (f : β → β) (h : k' ≠ k) :
    alookup (l.map (fun e => if e.1 = k' then (e.1, f e.2) else e)) k = alookup l k := by
  induction l with
  | nil => rfl
  | cons e rest ih =>
    by_cases he : e.1 = k'
    · have hk : ¬ e.1 = k := by
        intro hc
        exact h (by rw [← hc, he])
      simp [alookup, he, hk, h, ih]
    · by_cases hk : e.1 = k
      · simp [alookup, he, hk, Ne.symm h]
      · simp [alookup, he, hk, ih]

theorem alookup_aupsert_self {β : Type} (l : List (String × β)) (k : String) (v : β) :
    alookup (aupsert l k v) k = some v := by
  unfold aupsert
  cases hl : alookup l k with
  | none => exact alookup_append_single_self hl v
  | some w =>
    have h2 := alookup_map_modify_self l k (fun _ => v)
    rw [hl] at h2
    exact h2

theorem alookup_aupsert_ne {β : Type} (l : List (String × β)) {k k' : String}
    (v : β) (h : k' ≠ k) :
    alookup (aupsert l k' v) k = alookup l k := by
  unfold aupsert
  cases hl : alookup l k' with
  | none => exact alookup_append_single_ne l v h
  | some w => exact alookup_map_modify_ne l (fun _ => v) h

theorem akeys_map_modify {β : Type} (l : List (String × β)) (k : String) (f : β → β) :
    akeys (l.map (fun e => if e.1 = k then (e.1, f e.2) else e)) = akeys l := by
  induction l with
  | nil => rfl
  | cons e rest ih =>
    by_cases he : e.1 = k
    · simp [akeys, he] at ih ⊢
      exact ih
    · simp [akeys, he] at ih ⊢
      exact ih

/-! ### Counter lemmas -/

theorem cGet_cIncr_self (c : Counter) (k : String) :
    cGet (cIncr c k) k = cGet c k + 1 := by
  unfold cIncr cGet
  cases hl : alookup c k with
  | none => simp [alookup_append_single_self hl]
  | some n =>
    have := alookup_map_modify_self c k (fun m => m + 1)
    simp [hl] at this
    simp [this, hl]

theorem cGet_cIncr_ne (c : Counter) {k k' : String} (h : k' ≠ k) :
    cGet (cIncr c k') k = cGet c k := by
  unfold cIncr cGet
  cases hl : alookup c k' with
  | none => simp [alookup_append_single_ne c 1 h]
  | some n => simp [alookup_map_modify_ne c (fun m => m + 1) h]

theorem cIsSet_cDelete_self (c : Counter) (k : String) :
    cIsSet (cDelete c k) k = false := by
  simp [cIsSet, cDelete, alookup_adelete_self]

theorem cGet_cDelete_ne (c : Counter) {k k' : String} (h : k' ≠ k) :
    cGet (cDelete c k') k = cGet c k := by
  simp [cGet, cDelete, alookup_adelete_ne c h]

theorem akeys_append {β : Type} (l1 l2 : List (String × β)) :
    akeys (l1 ++ l2) = akeys l1 ++ akeys l2 := by
  simp [akeys]

theorem mem_akeys_of_alookup {β : Type} {l : List (String × β)} {k : String} {v : β}
    (h : alookup l k = some v) : k ∈ akeys l := by
  induction l with
  | nil => simp [alookup] at h
  | cons e rest ih =>
    by_cases he : e.1 = k
    · exact (show k ∈ e.1 :: akeys rest from List.mem_cons.mpr (Or.inl he.symm))
    · simp only [alookup, he, if_false] at h
      exact (show k ∈ e.1 :: akeys rest from List.mem_cons.mpr (Or.inr (ih h)))

theorem mem_cKeys_cIncr_self (c : Counter) (k : String) :
    k ∈ cKeys (cIncr c k) := by
  unfold cIncr
  cases hl : alookup c k with
  | none =>
    show k ∈ akeys (c ++ [(k, 1)])
    rw [akeys_append]
    exact List.mem_append.mpr (Or.inr (List.mem_singleton.mpr rfl))
  | some n =>
    show k ∈ akeys (c.map (fun e => if e.1 = k then (e.1, e.2 + 1) else e))
    rw [akeys_map_modify c k (fun m => m + 1)]
    exact mem_akeys_of_alookup hl

theorem mem_cKeys_cIncr_of_mem {c : Counter} {m : String} (k : String)
    (h : m ∈ cKeys c) : m ∈ cKeys (cIncr c k) := by
  unfold cIncr
  cases hl : alookup c k with
  | none =>
    show m ∈ akeys (c ++ [(k, 1)])
    rw [akeys_append]
    exact List.mem_append.mpr (Or.inl h)
  | some n =>
    show m ∈ akeys (c.map (fun e => if e.1 = k then (e.1, e.2 + 1) else e))
    rw [akeys_map_modify c k (fun v => v + 1)]
    exact h

theorem mem_cKeys_foldl_of_mem {ks : List String} {c : Counter} {m : String}
    (h : m ∈ cKeys c) : m ∈ cKeys (ks.foldl cIncr c) := by
  induction ks generalizing c with
  | nil => exact h
  | cons k rest ih =>
    rw [List.foldl_cons]
    exact ih (mem_cKeys_cIncr_of_mem k h)

theorem mem_cKeys_foldl_of_mem_list {ks : List String} {c : Counter} {m : String}
    (h : m ∈ ks) : m ∈ cKeys (ks.foldl cIncr c) := by
  induction ks generalizing c with
  | nil => cases h
  | cons k rest ih =>
    rw [List.foldl_cons]
    rcases List.mem_cons.mp h with rfl | hm
    · exact mem_cKeys_foldl_of_mem (mem_cKeys_cIncr_self c m)
    · exact ih hm

/-! ### Overlay-application lemmas -/

theorem rsChargeOf_nil (s : String) : rsChargeOf [] s = 0 := rfl

theorem rsUpdateNRT_nil (nrt : NRT) : rsUpdateNRT [] nrt = nrt := by
  have hres : ∀ rl : List ZoneResource,
      rl.map (fun r => { r with available := r.available - rsChargeOf [] r.name }) = rl := by
    intro rl
    induction rl with
    | nil => rfl
    | cons r rest ih =>
      rw [List.map_cons, ih]
      rfl
  have hz : ∀ zl : List Zone,
      zl.map (fun z => { z with resources := z.resources.map (fun r =>
          { r with available := r.available - rsChargeOf [] r.name }) }) = zl := by
    intro zl
    induction zl with
    | nil => rfl
    | cons z rest ih => rw [List.map_cons, ih, hres z.resources]
  show ({ nrt with zones := _ } : NRT) = nrt
  rw [hz nrt.zones]

theorem rsChargeOf_single (k : String) (reqs : List (String × Nat)) (s : String) :
    rsChargeOf [(k, reqs)] s = (alookup reqs s).getD 0 := by
  simp [rsChargeOf]

/-! ### Claim theorems -/

/-- C1: for every node, `GetCachedNRTCopy` returns `(none, false)` when the
node is flagged as having foreign workload units; `(none, true)` when the
node is not flagged and the topology store holds no snapshot for it; and
otherwise the stored snapshot with the node's resource-overlay charges
applied, paired with `true`. -/
theorem getCachedNRTCopy_characterization (ov : OverReserve) (n : String) :
    (cIsSet ov.nodesWithForeignPods n = true →
      GetCachedNRTCopy ov n = (none, false)) ∧
    (cIsSet ov.nodesWithForeignPods n = false → nrtsGet ov.nrts n = none →
      GetCachedNRTCopy ov n = (none, true)) ∧
    (∀ nrt, cIsSet ov.nodesWithForeignPods n = false → nrtsGet ov.nrts n = some nrt →
      GetCachedNRTCopy ov n = (some (rsUpdateNRT (overlayOf ov n) nrt), true)) := by
  refine ⟨?_, ?_, ?_⟩
  · intro hf
    simp [GetCachedNRTCopy, hf]
  · intro hf hn
    simp [GetCachedNRTCopy, hf, hn]
  · intro nrt hf hn
    cases ha : alookup ov.assumedResources n with
    | none => simp [GetCachedNRTCopy, hf, hn, ha, overlayOf, rsUpdateNRT_nil]
    | some rs => simp [GetCachedNRTCopy, hf, hn, ha, overlayOf]

/-- Closed instance of the C1 characterization on a concrete cache state:
one foreign-flagged node, one unknown node, one node with an overlay. -/
theorem getCachedNRTCopy_characterization_witness :
    GetCachedNRTCopy ovC1 "f" = (none, false) ∧
    GetCachedNRTCopy ovC1 "n9" = (none, true) ∧
    GetCachedNRTCopy ovC1 "n1" = (some (rsUpdateNRT (overlayOf ovC1 "n1") nrtOld), true) :=
  ⟨(getCachedNRTCopy_characterization ovC1 "f").1 (by rfl),
   (getCachedNRTCopy_characterization ovC1 "n9").2.1 (by rfl) (by rfl),
   (getCachedNRTCopy_characterization ovC1 "n1").2.2 nrtOld (by rfl) (by rfl)⟩

/-- C5: when at least one node is dirty but the workload-unit listing at the
start of `Resync` fails, the whole cycle is aborted and the cache state is
returned exactly as it was. -/
theorem resync_aborts_on_listing_failure (env : ResyncEnv) (ov : OverReserve) (e : String)
    (hdirty : NodesMaybeOverReserved ov ≠ [])
    (herr : env.pods = Except.error e) :
    Resync env ov = ov := by
  have hne : (NodesMaybeOverReserved ov).isEmpty = false := by
    cases h' : NodesMaybeOverReserved ov with
    | nil => exact absurd h' hdirty
    | cons a l => rfl
  simp [Resync, hne, makeNodeToPodDataMap, herr]

/-- Closed instance of C5: a dirty single-node cache with a failing listing
comes back unchanged from `Resync`. -/
theorem resync_aborts_on_listing_failure_witness :
    Resync envErr (NodeMaybeOverReserved ovInit "n1") = NodeMaybeOverReserved ovInit "n1" :=
  resync_aborts_on_listing_failure envErr (NodeMaybeOverReserved ovInit "n1")
    "connection refused" (by decide) (by rfl)

/-- C6: unreserving on a node with no overlay entry is a complete no-op: the
returned cache state is the input state, so no entry is created and no other
node's snapshot, overlay, or counters change. -/
theorem unreserve_noop_when_untracked (ov : OverReserve) (n : String) (p : Pod)
    (h : alookup ov.assumedResources n = none) :
    UnreserveNodeResources ov n p = ov := by
  unfold UnreserveNodeResources
  rw [h]

/-- Closed instance of C6 on a freshly constructed cache. -/
theorem unreserve_noop_when_untracked_witness :
    UnreserveNodeResources ovInit "n1" podA = ovInit :=
  unreserve_noop_when_untracked ovInit "n1" podA (by rfl)

/-- C7: reserving deletes the "maybe over-reserved" counter entry of the
reserved node, leaves that counter unchanged for every other node, and
leaves the "foreign workload units" counter untouched for all nodes. -/
theorem reserve_clears_overreserved_counter (ov : OverReserve) (n : String) (p : Pod)
    (m : String) (hm : m ≠ n) :
    cIsSet (ReserveNodeResources ov n p).nodesMaybeOverreserved n = false ∧
    cGet (ReserveNodeResources ov n p).nodesMaybeOverreserved m
      = cGet ov.nodesMaybeOverreserved m ∧
    (ReserveNodeResources ov n p).nodesWithForeignPods = ov.nodesWithForeignPods :=
  ⟨cIsSet_cDelete_self ov.nodesMaybeOverreserved n,
   cGet_cDelete_ne ov.nodesMaybeOverreserved (Ne.symm hm),
   rfl⟩

/-- Closed instance of C7: two dirty nodes, a reservation on one of them. -/
theorem reserve_clears_overreserved_counter_witness :
    cIsSet (ReserveNodeResources ovC7 "n1" podA).nodesMaybeOverreserved "n1" = false ∧
    cGet (ReserveNodeResources ovC7 "n1" podA).nodesMaybeOverreserved "n2"
      = cGet ovC7.nodesMaybeOverreserved "n2" ∧
    (ReserveNodeResources ovC7 "n1" podA).nodesWithForeignPods = ovC7.nodesWithForeignPods :=
  reserve_clears_overreserved_counter ovC7 "n1" podA "n2" (by decide)

/-- C8: marking a node as having foreign workload units increments the
foreign counter exactly when the topology store holds a snapshot for the
node (the other state components staying as they were), and is a complete
no-op otherwise. -/
theorem nodeHasForeignPods_requires_snapshot (ov : OverReserve) (n : String) :
    (nrtsContains ov.nrts n = true →
      cGet (NodeHasForeignPods ov n).nodesWithForeignPods n
          = cGet ov.nodesWithForeignPods n + 1 ∧
      (NodeHasForeignPods ov n).nrts = ov.nrts ∧
      (NodeHasForeignPods ov n).assumedResources = ov.assumedResources ∧
      (NodeHasForeignPods ov n).nodesMaybeOverreserved = ov.nodesMaybeOverreserved) ∧
    (nrtsContains ov.nrts n = false → NodeHasForeignPods ov n = ov) := by
  constructor
  · intro h
    have hstep : NodeHasForeignPods ov n
        = { ov with nodesWithForeignPods := cIncr ov.nodesWithForeignPods n } := by
      simp [NodeHasForeignPods, h]
    rw [hstep]
    exact ⟨cGet_cIncr_self ov.nodesWithForeignPods n, rfl, rfl, rfl⟩
  · intro h
    unfold NodeHasForeignPods
    simp [h]

/-- Closed instance of C8: node "n1" has a snapshot (counter bumped), node
"n9" has none (call ignored). -/
theorem nodeHasForeignPods_requires_snapshot_witness :
    cGet (NodeHasForeignPods ovInit "n1").nodesWithForeignPods "n1"
        = cGet ovInit.nodesWithForeignPods "n1" + 1 ∧
    NodeHasForeignPods ovInit "n9" = ovInit :=
  ⟨((nodeHasForeignPods_requires_snapshot ovInit "n1").1 (by rfl)).1,
   (nodeHasForeignPods_requires_snapshot ovInit "n9").2 (by rfl)⟩

/-- C10: marking a node "maybe over-reserved" increments that counter
unconditionally — no snapshot needs to be stored for the node — and the node
subsequently appears in the dirty-node list. -/
theorem nodeMaybeOverReserved_unconditional (ov : OverReserve) (n : String) :
    cGet (NodeMaybeOverReserved ov n).nodesMaybeOverreserved n
        = cGet ov.nodesMaybeOverreserved n + 1 ∧
    n ∈ NodesMaybeOverReserved (NodeMaybeOverReserved ov n) :=
  ⟨cGet_cIncr_self ov.nodesMaybeOverreserved n,
   mem_cKeys_foldl_of_mem_list (mem_cKeys_cIncr_self ov.nodesMaybeOverreserved n)⟩

/-- Reserving on a node with no prior overlay entry installs exactly the
unit's requested resources as the node's overlay record. -/
theorem reserve_assumed_of_clean (ov : OverReserve) (n : String) (u : Pod)
    (hclean : alookup ov.assumedResources n = none) :
    (ReserveNodeResources ov n u).assumedResources
      = aupsert ov.assumedResources n [(podKey u, u.requests)] := by
  show aupsert ov.assumedResources n
      (rsAddPod ((alookup ov.assumedResources n).getD []) u) = _
  rw [hclean]
  rfl

/-- C3: on a node with a stored snapshot, no foreign flag and no prior
overlay, reserving a unit and immediately reading the cached copy yields the
stored snapshot with every zone's available quantities reduced by the unit's
requested quantities for that resource, clamped at zero (`Nat` subtraction
truncates at zero). -/
theorem reserve_then_get_adjusted (ov : OverReserve) (n : String) (u : Pod) (nrt : NRT)
    (hf : cIsSet ov.nodesWithForeignPods n = false)
    (hs : nrtsGet ov.nrts n = some nrt)
    (hclean : alookup ov.assumedResources n = none) :
    GetCachedNRTCopy (ReserveNodeResources ov n u) n =
      (some { nrt with zones := nrt.zones.map (fun z =>
          { z with resources := z.resources.map (fun r =>
              { r with available := r.available - (alookup u.requests r.name).getD 0 }) }) },
       true) := by
  have hrs : alookup (ReserveNodeResources ov n u).assumedResources n
      = some [(podKey u, u.requests)] := by
    rw [reserve_assumed_of_clean ov n u hclean]
    exact alookup_aupsert_self _ _ _
  have hfor : (ReserveNodeResources ov n u).nodesWithForeignPods
      = ov.nodesWithForeignPods := rfl
  have hnrts : (ReserveNodeResources ov n u).nrts = ov.nrts := rfl
  simp [GetCachedNRTCopy, hnrts, hfor, hf, hs, hrs]
  unfold rsUpdateNRT
  simp only [rsChargeOf_single]

/-- Closed instance of C3: reserving ns1/a on "n1" and reading back; the
second equation pins the fully evaluated snapshot, showing the mem quantity
of zone-0 clamped at zero (10 available minus 12 requested). -/
theorem reserve_then_get_adjusted_witness :
    (GetCachedNRTCopy (ReserveNodeResources ovInit "n1" podA) "n1" =
      (some { nrtOld with zones := nrtOld.zones.map (fun z =>
          { z with resources := z.resources.map (fun r =>
              { r with available := r.available - (alookup podA.requests r.name).getD 0 }) }) },
       true)) ∧
    GetCachedNRTCopy (ReserveNodeResources ovInit "n1" podA) "n1" =
      (some { name := "n1"
              zones := [⟨"zone-0", [⟨"cpu", 8, 2⟩, ⟨"mem", 16, 0⟩]⟩,
                        ⟨"zone-1", [⟨"cpu", 8, 6⟩]⟩]
              fingerprint := some "stale-digest"
              fingerprintOnlyExclusive := none },
       true) :=
  ⟨reserve_then_get_adjusted ovInit "n1" podA nrtOld (by rfl) (by rfl) (by rfl),
   by decide⟩

/-- C4: on a node with a stored snapshot, no foreign flag and no prior
overlay, reserving a unit and then unreserving the same unit restores the
cached copy to the un-overlaid stored snapshot. -/
theorem reserve_unreserve_roundtrip (ov : OverReserve) (n : String) (u : Pod) (nrt : NRT)
    (hf : cIsSet ov.nodesWithForeignPods n = false)
    (hs : nrtsGet ov.nrts n = some nrt)
    (hclean : alookup ov.assumedResources n = none) :
    GetCachedNRTCopy (UnreserveNodeResources (ReserveNodeResources ov n u) n u) n
      = (some nrt, true) := by
  have hrs : alookup (ReserveNodeResources ov n u).assumedResources n
      = some [(podKey u, u.requests)] := by
    rw [reserve_assumed_of_clean ov n u hclean]
    exact alookup_aupsert_self _ _ _
  have hdel : rsDeletePod [(podKey u, u.requests)] u = [] := by
    simp [rsDeletePod, adelete]
  have hstate : UnreserveNodeResources (ReserveNodeResources ov n u) n u
      = { ReserveNodeResources ov n u with
          assumedResources := aupsert (ReserveNodeResources ov n u).assumedResources n
            (rsDeletePod [(podKey u, u.requests)] u) } := by
    unfold UnreserveNodeResources
    rw [hrs]
  have hrs2 : alookup
      (UnreserveNodeResources (ReserveNodeResources ov n u) n u).assumedResources n
      = some [] := by
    rw [hstate, hdel]
    exact alookup_aupsert_self _ _ _
  have hf2 : cIsSet
      (UnreserveNodeResources (ReserveNodeResources ov n u) n u).nodesWithForeignPods n
      = false := by
    rw [hstate]
    exact hf
  have hs2 : nrtsGet
      (UnreserveNodeResources (ReserveNodeResources ov n u) n u).nrts n
      = some nrt := by
    rw [hstate]
    exact hs
  simp [GetCachedNRTCopy, hf2, hs2, hrs2, rsUpdateNRT_nil]

/-- Closed instance of C4: reserve then unreserve ns1/a on "n1" restores the
stored snapshot. -/
theorem reserve_unreserve_roundtrip_witness :
    GetCachedNRTCopy
        (UnreserveNodeResources (ReserveNodeResources ovInit "n1" podA) "n1" podA) "n1"
      = (some nrtOld, true) :=
  reserve_unreserve_roundtrip ovInit "n1" podA nrtOld (by rfl) (by rfl) (by rfl)

/-! ### Flush lemmas -/

theorem flushNode_frame (ov : OverReserve) (nrt : NRT) {n : String} (h : nrt.name ≠ n) :
    nrtsGet (flushNode ov nrt).nrts n = nrtsGet ov.nrts n ∧
    alookup (flushNode ov nrt).assumedResources n = alookup ov.assumedResources n ∧
    alookup (flushNode ov nrt).nodesMaybeOverreserved n
      = alookup ov.nodesMaybeOverreserved n ∧
    alookup (flushNode ov nrt).nodesWithForeignPods n
      = alookup ov.nodesWithForeignPods n :=
  ⟨alookup_aupsert_ne ov.nrts nrt h,
   alookup_adelete_ne ov.assumedResources h,
   alookup_adelete_ne ov.nodesMaybeOverreserved h,
   alookup_adelete_ne ov.nodesWithForeignPods h⟩

theorem flushNode_self (ov : OverReserve) (nrt : NRT) :
    nrtsGet (flushNode ov nrt).nrts nrt.name = some nrt ∧
    alookup (flushNode ov nrt).assumedResources nrt.name = none ∧
    alookup (flushNode ov nrt).nodesMaybeOverreserved nrt.name = none ∧
    alookup (flushNode ov nrt).nodesWithForeignPods nrt.name = none :=
  ⟨alookup_aupsert_self ov.nrts nrt.name nrt,
   alookup_adelete_self ov.assumedResources nrt.name,
   alookup_adelete_self ov.nodesMaybeOverreserved nrt.name,
   alookup_adelete_self ov.nodesWithForeignPods nrt.name⟩

theorem flushNodes_frame (updates : List NRT) (ov : OverReserve) {n : String}
    (h : ∀ u ∈ updates, u.name ≠ n) :
    nrtsGet (FlushNodes ov updates).nrts n = nrtsGet ov.nrts n ∧
    alookup (FlushNodes ov updates).assumedResources n = alookup ov.assumedResources n ∧
    alookup (FlushNodes ov updates).nodesMaybeOverreserved n
      = alookup ov.nodesMaybeOverreserved n ∧
    alookup (FlushNodes ov updates).nodesWithForeignPods n
      = alookup ov.nodesWithForeignPods n := by
  induction updates generalizing ov with
  | nil => exact ⟨rfl, rfl, rfl, rfl⟩
  | cons u rest ih =>
    have hu : u.name ≠ n := h u (List.mem_cons_self u rest)
    have h1 := flushNode_frame ov u hu
    have h2 := ih (flushNode ov u) (fun v hv => h v (List.mem_cons_of_mem u hv))
    exact ⟨h2.1.trans h1.1, h2.2.1.trans h1.2.1,
           h2.2.2.1.trans h1.2.2.1, h2.2.2.2.trans h1.2.2.2⟩

theorem flushNodes_flushed :
    ∀ (updates : List NRT) (ov : OverReserve) {n : String} {cand : NRT},
    cand.name = n →
    (∀ u ∈ updates, u.name = n → u = cand) →
    (∃ u ∈ updates, u.name = n) →
    nrtsGet (FlushNodes ov updates).nrts n = some cand ∧
    alookup (FlushNodes ov updates).assumedResources n = none ∧
    alookup (FlushNodes ov updates).nodesMaybeOverreserved n = none ∧
    alookup (FlushNodes ov updates).nodesWithForeignPods n = none := by
  intro updates
  induction updates with
  | nil =>
    intro ov n cand _ _ hmem
    rcases hmem with ⟨u, hu, _⟩
    cases hu
  | cons u rest ih =>
    intro ov n cand hcand hall hmem
    by_cases hrest : ∃ v ∈ rest, v.name = n
    · exact ih (flushNode ov u) hcand
        (fun v hv hvn => hall v (List.mem_cons_of_mem u hv) hvn) hrest
    · have hu : u.name = n := by
        rcases hmem with ⟨v, hv, hvn⟩
        rcases List.mem_cons.mp hv with rfl | hvr
        · exact hvn
        · exact absurd ⟨v, hvr, hvn⟩ hrest
      have hueq : u = cand := hall u (List.mem_cons_self u rest) hu
      subst hueq
      have hframe := flushNodes_frame rest (flushNode ov u)
        (fun v hv hvn => hrest ⟨v, hv, hvn⟩)
      have hself := flushNode_self ov u
      rw [hu] at hself
      exact ⟨hframe.1.trans hself.1, hframe.2.1.trans hself.2.1,
             hframe.2.2.1.trans hself.2.2.1, hframe.2.2.2.trans hself.2.2.2⟩

theorem resyncCandidateFor_clientGet {env : ResyncEnv} {method : CacheResyncMethod}
    {m : List (String × List PodData)} {n : String} {cand : NRT}
    (h : resyncCandidateFor env method m n = some cand) :
    env.clientGet n = Except.ok cand := by
  unfold resyncCandidateFor at h
  cases hg : env.clientGet n with
  | error e =>
    rw [hg] at h
    cases h
  | ok nrtCandidate =>
    rw [hg] at h
    cases ho : alookup m n with
    | none =>
      rw [ho] at h
      cases h
    | some objs =>
      rw [ho] at h
      dsimp only at h
      by_cases hp : (podFingerprintForNodeTopology nrtCandidate method).1 = ""
      · rw [if_pos hp] at h
        cases h
      · rw [if_neg hp] at h
        by_cases hc : checkPodFingerprintForNode env.digest objs
            (podFingerprintForNodeTopology nrtCandidate method).1
            (podFingerprintForNodeTopology nrtCandidate method).2 = true
        · rw [if_pos hc] at h
          cases h
          rfl
        · rw [if_neg hc] at h
          cases h

/-- C2: during a `Resync` run (one whose workload-unit listing succeeded,
against an object store whose fetched snapshots carry their own node name),
every dirty node whose per-node check succeeds — fetch succeeded, roster
present, snapshot fingerprint present and matching the digest over the live
roster — is flushed: its stored snapshot is replaced by the fetched one, its
overlay entry is deleted, and both of its counters are cleared. Every dirty
node whose check fails (fetch failure, absent roster, missing digest, or
fingerprint mismatch) keeps its overlay entry and both counter entries
exactly as they were. -/
theorem resync_flushes_exactly_matching (env : ResyncEnv) (ov : OverReserve)
    (m : List (String × List PodData)) (n : String)
    (hm : makeNodeToPodDataMap env.pods env.isPodRelevant = Except.ok m)
    (hnames : ∀ n' nrt, env.clientGet n' = Except.ok nrt → nrt.name = n')
    (hdirty : n ∈ NodesMaybeOverReserved ov) :
    (∀ cand, resyncCandidateFor env ov.resyncMethod m n = some cand →
        nrtsGet (Resync env ov).nrts n = some cand ∧
        alookup (Resync env ov).assumedResources n = none ∧
        alookup (Resync env ov).nodesMaybeOverreserved n = none ∧
        alookup (Resync env ov).nodesWithForeignPods n = none) ∧
    (resyncCandidateFor env ov.resyncMethod m n = none →
        alookup (Resync env ov).assumedResources n = alookup ov.assumedResources n ∧
        alookup (Resync env ov).nodesMaybeOverreserved n
          = alookup ov.nodesMaybeOverreserved n ∧
        alookup (Resync env ov).nodesWithForeignPods n
          = alookup ov.nodesWithForeignPods n) := by
  have hne : (NodesMaybeOverReserved ov).isEmpty = false := by
    cases h' : NodesMaybeOverReserved ov with
    | nil =>
      rw [h'] at hdirty
      cases hdirty
    | cons a l => rfl
  have hres : Resync env ov
      = FlushNodes ov ((NodesMaybeOverReserved ov).filterMap
          (resyncCandidateFor env ov.resyncMethod m)) := by
    simp [Resync, hne, hm]
  rw [hres]
  constructor
  · intro cand hcand
    have hget := resyncCandidateFor_clientGet hcand
    have hname : cand.name = n := hnames n cand hget
    have hall : ∀ u ∈ (NodesMaybeOverReserved ov).filterMap
        (resyncCandidateFor env ov.resyncMethod m), u.name = n → u = cand := by
      intro u hu hun
      rcases List.mem_filterMap.mp hu with ⟨n', _, hf'⟩
      have hn' : u.name = n' := hnames n' u (resyncCandidateFor_clientGet hf')
      rw [hn'] at hun
      subst hun
      exact Option.some.inj (hf'.symm.trans hcand)
    have hmem : ∃ u ∈ (NodesMaybeOverReserved ov).filterMap
        (resyncCandidateFor env ov.resyncMethod m), u.name = n :=
      ⟨cand, List.mem_filterMap.mpr ⟨n, hdirty, hcand⟩, hname⟩
    exact flushNodes_flushed _ ov hname hall hmem
  · intro hnone
    have hall : ∀ u ∈ (NodesMaybeOverReserved ov).filterMap
        (resyncCandidateFor env ov.resyncMethod m), u.name ≠ n := by
      intro u hu hun
      rcases List.mem_filterMap.mp hu with ⟨n', _, hf'⟩
      have hn' : u.name = n' := hnames n' u (resyncCandidateFor_clientGet hf')
      rw [hn'] at hun
      subst hun
      rw [hnone] at hf'
      cases hf'
    have hframe := flushNodes_frame _ ov hall
    exact ⟨hframe.2.1, hframe.2.2.1, hframe.2.2.2⟩

/-- Closed instance of C2 — the spec's resync scenario: "n1" is dirty with an
overlay and its snapshot is fingerprinted over the roster {ns1/a, ns1/b}.
With live roster exactly {a, b}, resync flushes "n1" (snapshot replaced by
the fetched one, overlay and both counters cleared); with the live roster
grown to {a, b, c}, the fingerprint mismatches and "n1" keeps its overlay
entry and counters untouched. -/
theorem resync_flushes_exactly_matching_witness :
    (nrtsGet (Resync envW ovC2).nrts "n1" = some nrtNew ∧
     alookup (Resync envW ovC2).assumedResources "n1" = none ∧
     alookup (Resync envW ovC2).nodesMaybeOverreserved "n1" = none ∧
     alookup (Resync envW ovC2).nodesWithForeignPods "n1" = none) ∧
    (alookup (Resync envW2 ovC2).assumedResources "n1"
        = alookup ovC2.assumedResources "n1" ∧
     alookup (Resync envW2 ovC2).nodesMaybeOverreserved "n1"
        = alookup ovC2.nodesMaybeOverreserved "n1" ∧
     alookup (Resync envW2 ovC2).nodesWithForeignPods "n1"
        = alookup ovC2.nodesWithForeignPods "n1") := by
  have hnames : ∀ n' nrt, envW.clientGet n' = Except.ok nrt → nrt.name = n' := by
    intro n' nrt h
    simp only [envW] at h
    by_cases hn : n' = "n1"
    · rw [if_pos hn] at h
      cases h
      exact hn.symm
    · rw [if_neg hn] at h
      exact Except.noConfusion h
  constructor
  · exact (resync_flushes_exactly_matching envW ovC2 mW "n1"
      (by rfl) hnames (by decide)).1 nrtNew (by rfl)
  · exact (resync_flushes_exactly_matching envW2 ovC2 mW2 "n1"
      (by rfl) hnames (by decide)).2 (by rfl)

/-! ### Overlay-key lifecycle -/

theorem alookup_adelete_none {β : Type} {l : List (String × β)} {k : String} (k' : String)
    (h : alookup l k = none) : alookup (adelete l k') k = none := by
  by_cases hk : k' = k
  · rw [hk]
    exact alookup_adelete_self l k
  · rw [alookup_adelete_ne l hk]
    exact h

theorem flushNodes_assumed_none (l : List NRT) (ov : OverReserve) {m : String}
    (h : alookup ov.assumedResources m = none) :
    alookup (FlushNodes ov l).assumedResources m = none := by
  induction l generalizing ov with
  | nil => exact h
  | cons u rest ih => exact ih (flushNode ov u) (alookup_adelete_none u.name h)

/-- C9 counterexample: the cache state reached from a fresh cache by
`ReserveNodeResources "n1" podA` followed by
`UnreserveNodeResources "n1" podA` is reachable through the public
operations, yet "n1" is still a key of the resource overlay store while its
record is empty — no reservation is outstanding for it. So it is false that
in every reachable state an overlay key has an outstanding reservation. -/
theorem overlay_key_requires_outstanding_counterexample :
    ¬ (∀ ov : OverReserve, Reachable ov →
        ∀ n rs, alookup ov.assumedResources n = some rs → rs ≠ []) := by
  intro h
  have hreach : Reachable (UnreserveNodeResources
      (ReserveNodeResources (newOverReserve [] CacheResyncMethod.autodetect) "n1" podA)
      "n1" podA) :=
    Reachable.unreserve "n1" podA
      (Reachable.reserve "n1" podA (Reachable.init [] CacheResyncMethod.autodetect))
  exact h _ hreach "n1" [] (by rfl) rfl

/-- C9 amended: a node name appears as a key of the resource overlay store
only if a reserve call created the entry and no flush for that node removed
it since — keys are created only by reserve (the marking operations leave
the overlay store untouched, unreserve and resync never create a key) and
flushing a node deletes its key outright. The entry itself may outlive its
reservations: after unreserve removes the last recorded unit, the (now
empty) entry remains until a flush. -/
theorem overlay_key_lifecycle (ov : OverReserve) (env : ResyncEnv)
    (n m : String) (p : Pod) (nrt : NRT) (l : List NRT)
    (hnone : alookup ov.assumedResources m = none) :
    alookup (UnreserveNodeResources ov n p).assumedResources m = none ∧
    (NodeMaybeOverReserved ov n).assumedResources = ov.assumedResources ∧
    (NodeHasForeignPods ov n).assumedResources = ov.assumedResources ∧
    alookup (flushNode ov nrt).assumedResources nrt.name = none ∧
    alookup (FlushNodes ov l).assumedResources m = none ∧
    alookup (Resync env ov).assumedResources m = none ∧
    alookup (ReserveNodeResources ov n p).assumedResources n ≠ none := by
  refine ⟨?_, rfl, ?_, ?_, ?_, ?_, ?_⟩
  · cases ha : alookup ov.assumedResources n with
    | none =>
      have hst : UnreserveNodeResources ov n p = ov := by
        unfold UnreserveNodeResources
        rw [ha]
      rw [hst]
      exact hnone
    | some rs =>
      have hst : (UnreserveNodeResources ov n p).assumedResources
          = aupsert ov.assumedResources n (rsDeletePod rs p) := by
        unfold UnreserveNodeResources
        rw [ha]
      by_cases hnm : n = m
      · rw [hnm] at ha
        rw [ha] at hnone
        exact Option.noConfusion hnone
      · rw [hst, alookup_aupsert_ne ov.assumedResources (rsDeletePod rs p) hnm]
        exact hnone
  · unfold NodeHasForeignPods
    split <;> rfl
  · exact alookup_adelete_self ov.assumedResources nrt.name
  · exact flushNodes_assumed_none l ov hnone
  · unfold Resync
    by_cases he : (NodesMaybeOverReserved ov).isEmpty = true
    · simp only [he, if_true]
      exact hnone
    · simp only [he, if_false]
      cases hmk : makeNodeToPodDataMap env.pods env.isPodRelevant with
      | error e =>
        simp only [Bool.not_eq_true] at he
        simp [he, hmk]
        exact hnone
      | ok mm =>
        simp only [Bool.not_eq_true] at he
        simp [he, hmk]
        exact flushNodes_assumed_none _ ov hnone
  · have hst : (ReserveNodeResources ov n p).assumedResources
        = aupsert ov.assumedResources n
            (rsAddPod ((alookup ov.assumedResources n).getD []) p) := rfl
    rw [hst, alookup_aupsert_self]
    exact fun hc => Option.noConfusion hc

/-- Closed instance of the amended C9 lifecycle on a fresh cache. -/
theorem overlay_key_lifecycle_witness :
    alookup (UnreserveNodeResources ovInit "n1" podA).assumedResources "n1" = none ∧
    (NodeMaybeOverReserved ovInit "n1").assumedResources = ovInit.assumedResources ∧
    (NodeHasForeignPods ovInit "n1").assumedResources = ovInit.assumedResources ∧
    alookup (flushNode ovInit nrtNew).assumedResources nrtNew.name = none ∧
    alookup (FlushNodes ovInit [nrtNew]).assumedResources "n1" = none ∧
    alookup (Resync envErr ovInit).assumedResources "n1" = none ∧
    alookup (ReserveNodeResources ovInit "n1" podA).assumedResources "n1" ≠ none :=
  overlay_key_lifecycle ovInit envErr "n1" "n1" podA nrtNew [nrtNew] (by rfl)

end SchedCache
